import Mathlib

/-!
Shallow embedding of the car-rental booking service (app/services.py) and
proofs about its availability / booking-creation logic.

The store files (cars.json, bookings.json) are modelled as explicit list
arguments; save_data is modelled by returning the final booking list next
to the function result.  Raised Python exceptions are modelled with
Except PyError.
-/

/-- Calendar date as parsed by datetime.strptime with format Y-m-d:
a year, month, day triple ordered chronologically (lexicographically). -/
structure Date where
  year : Nat
  month : Nat
  day : Nat
deriving DecidableEq, Repr

/-- Chronological comparison of dates (datetime less-or-equal). -/
def Date.le (a b : Date) : Bool :=
  decide (a.year < b.year ∨ (a.year = b.year ∧
    (a.month < b.month ∨ (a.month = b.month ∧ a.day ≤ b.day))))

/-- Chronological comparison of dates (datetime strictly-less). -/
def Date.lt (a b : Date) : Bool :=
  decide (a.year < b.year ∨ (a.year = b.year ∧
    (a.month < b.month ∨ (a.month = b.month ∧ a.day < b.day))))

/-- Numeric value of a decimal digit character. -/
def digitVal (c : Char) : Nat := c.toNat - 48

/-- Gregorian leap-year test (as in Python datetime). -/
def isLeapYear (y : Nat) : Bool := (y % 4 == 0 && y % 100 != 0) || y % 400 == 0

/-- Number of days in a month (as in Python datetime). -/
def daysInMonth (y m : Nat) : Nat :=
  if m == 2 then (if isLeapYear y then 29 else 28)
  else if m == 4 || m == 6 || m == 9 || m == 11 then 30
  else 31

/-- Modelled from the spec: Python datetime.strptime with format Y-m-d
(standard library, not part of the repository).  Accepts a zero-padded
YYYY-MM-DD string denoting a valid calendar date, rejects anything else.
Returns the parsed date, or none for a malformed date. -/
def parseDate (s : String) : Option Date :=
  match s.toList with
  | [y1, y2, y3, y4, c1, m1, m2, c2, d1, d2] =>
    if c1 == '-' && c2 == '-' && y1.isDigit && y2.isDigit && y3.isDigit &&
        y4.isDigit && m1.isDigit && m2.isDigit && d1.isDigit && d2.isDigit then
      let y := 1000 * digitVal y1 + 100 * digitVal y2 + 10 * digitVal y3 + digitVal y4
      let m := 10 * digitVal m1 + digitVal m2
      let d := 10 * digitVal d1 + digitVal d2
      if 1 ≤ m && m ≤ 12 && 1 ≤ d && d ≤ daysInMonth y m then
        some ⟨y, m, d⟩
      else none
    else none
  | _ => none

/-- A raised Python exception.  The service code raises only ValueError:
explicitly for a missing car, and from datetime.strptime for a malformed
date string. -/
inductive PyError where
  | valueError (msg : String)
deriving DecidableEq, Repr

/-- Modelled from the spec: datetime.strptime as used by the service code,
returning the parsed date or raising ValueError.  The exact ValueError
message of the standard library is modelled as a fixed string distinct
from the message used for a missing car. -/
def strptime (s : String) : Except PyError Date :=
  match parseDate s with
  | some d => Except.ok d
  | none => Except.error (PyError.valueError "time data does not match format Y-m-d")

/-- A car record from cars.json: an id and a name. -/
structure Car where
  id : Int
  name : String
deriving DecidableEq, Repr

/-- A booking record from bookings.json.  Dates are stored as strings in
YYYY-MM-DD form; pickup and dropoff times are stored but never used in
conflict logic. -/
structure Booking where
  car_id : Int
  startDate : String
  endDate : String
  pickupTime : String
  dropoffTime : String
deriving DecidableEq, Repr

/-- The inclusive-overlap test of is_car_available, services.py line 141:
requested_start is at most booking_end and requested_end is at least
booking_start. -/
def overlapsB (reqStart reqEnd bStart bEnd : Date) : Bool :=
  Date.le reqStart bEnd && Date.le bStart reqEnd

/-- The overlap test of create_booking, services.py lines 96-99:
not (end_date_obj before booking start or start_date_obj after booking
end). -/
def overlapsCreateB (reqStart reqEnd bStart bEnd : Date) : Bool :=
  !(Date.lt reqEnd bStart || Date.lt bEnd reqStart)

/-- is_car_available (services.py lines 119-144) with the bookings store
passed explicitly.  Scans the stored bookings; for each booking of the
requested car the stored dates and the request dates are parsed (in the
order of the source) and the inclusive-overlap test decides availability.
Returns ok false on the first conflict, ok true when no booking
conflicts, and propagates a strptime ValueError. -/
def is_car_available : List Booking → Int → String → String → Except PyError Bool
  | [], _, _, _ => Except.ok true
  | booking :: rest, car_id, start_date, end_date =>
    if booking.car_id == car_id then
      match strptime booking.startDate with
      | Except.error e => Except.error e
      | Except.ok booking_start =>
        match strptime booking.endDate with
        | Except.error e => Except.error e
        | Except.ok booking_end =>
          match strptime start_date with
          | Except.error e => Except.error e
          | Except.ok requested_start =>
            match strptime end_date with
            | Except.error e => Except.error e
            | Except.ok requested_end =>
              if overlapsB requested_start requested_end booking_start booking_end then
                Except.ok false
              else
                is_car_available rest car_id start_date end_date
    else
      is_car_available rest car_id start_date end_date

/-- The any-scan of create_booking (services.py lines 94-101) over the
stored bookings, with the request dates already parsed.  Mirrors the
short-circuit evaluation of the source: for a booking of another car
nothing is parsed; for a matching booking the stored start date is parsed
first, and the stored end date only when the first disjunct of the
condition is false.  Returns ok true when an overlapping booking is
found. -/
def conflictScan : List Booking → Int → Date → Date → Except PyError Bool
  | [], _, _, _ => Except.ok false
  | booking :: rest, car_id, start_date_obj, end_date_obj =>
    if booking.car_id == car_id then
      match strptime booking.startDate with
      | Except.error e => Except.error e
      | Except.ok bStart =>
        if Date.lt end_date_obj bStart then
          conflictScan rest car_id start_date_obj end_date_obj
        else
          match strptime booking.endDate with
          | Except.error e => Except.error e
          | Except.ok bEnd =>
            if overlapsCreateB start_date_obj end_date_obj bStart bEnd then
              Except.ok true
            else
              conflictScan rest car_id start_date_obj end_date_obj
    else
      conflictScan rest car_id start_date_obj end_date_obj

/-- create_booking (services.py lines 56-116) with the cars catalog and the
bookings store passed explicitly.  The pair returned is the function
result (or raised exception) together with the final contents of the
bookings store: unchanged on every non-success path, and the original
store with the new booking appended when save_data is reached. -/
def create_booking (cars : List Car) (bookings : List Booking) (car_id : Int)
    (start_date end_date pickup_time dropoff_time : String) :
    Except PyError Bool × List Booking :=
  match cars.find? (fun car => car.id == car_id) with
  | none => (Except.error (PyError.valueError "Car not found."), bookings)
  | some _ =>
    match strptime start_date with
    | Except.error e => (Except.error e, bookings)
    | Except.ok start_date_obj =>
      match strptime end_date with
      | Except.error e => (Except.error e, bookings)
      | Except.ok end_date_obj =>
        match conflictScan bookings car_id start_date_obj end_date_obj with
        | Except.error e => (Except.error e, bookings)
        | Except.ok true => (Except.ok false, bookings)
        | Except.ok false =>
          (Except.ok true,
            bookings ++ [⟨car_id, start_date, end_date, pickup_time, dropoff_time⟩])

/-- The unfiltered loop of check_car_availability (services.py lines
169-173): keeps every car for which is_car_available holds, in catalog
order. -/
def availScan (bookings : List Booking) (start_date end_date : String) :
    List Car → Except PyError (List Car)
  | [] => Except.ok []
  | car :: rest =>
    match is_car_available bookings car.id start_date end_date with
    | Except.error e => Except.error e
    | Except.ok avail =>
      match availScan bookings start_date end_date rest with
      | Except.error e => Except.error e
      | Except.ok tail => Except.ok (if avail then car :: tail else tail)

/-- The filtered loop of check_car_availability (services.py lines
163-168): keeps every car whose lowered name equals the lowered model
filter and for which is_car_available holds, in catalog order. -/
def availScanFiltered (bookings : List Booking) (start_date end_date car_model : String) :
    List Car → Except PyError (List Car)
  | [] => Except.ok []
  | car :: rest =>
    if car.name.toLower == car_model.toLower then
      match is_car_available bookings car.id start_date end_date with
      | Except.error e => Except.error e
      | Except.ok avail =>
        match availScanFiltered bookings start_date end_date car_model rest with
        | Except.error e => Except.error e
        | Except.ok tail => Except.ok (if avail then car :: tail else tail)
    else
      availScanFiltered bookings start_date end_date car_model rest

/-- check_car_availability (services.py lines 147-175) with the stores
passed explicitly.  The optional car_model goes through Python
truthiness: none and the empty string both select the unfiltered
branch. -/
def check_car_availability (cars : List Car) (bookings : List Booking)
    (start_date end_date : String) (car_model : Option String) :
    Except PyError (List Car) :=
  match car_model with
  | some m =>
    if m == "" then availScan bookings start_date end_date cars
    else availScanFiltered bookings start_date end_date m cars
  | none => availScan bookings start_date end_date cars

/-- One create_booking request, as received by the route layer. -/
structure Request where
  car_id : Int
  start_date : String
  end_date : String
  pickup_time : String
  dropoff_time : String

/-- Runs a sequence of create_booking calls against the store, each call
acting on the store left by the previous one (the only mutating
operation of the system). -/
def runBookings (cars : List Car) : List Request → List Booking → List Booking
  | [], bookings => bookings
  | r :: rs, bookings =>
    runBookings cars rs
      (create_booking cars bookings r.car_id r.start_date r.end_date
        r.pickup_time r.dropoff_time).2

/-- Pure conflict predicate over the stored bookings: some booking of the
requested car whose stored dates parse overlaps the parsed request range
under the inclusive-overlap test.  Used to characterise both scans. -/
def conflictB (bookings : List Booking) (car_id : Int) (rS rE : Date) : Bool :=
  bookings.any (fun b => b.car_id == car_id &&
    match parseDate b.startDate, parseDate b.endDate with
    | some bS, some bE => overlapsB rS rE bS bE
    | _, _ => false)

/-- Propositional form of the conflict predicate. -/
def ConflictsWith (bookings : List Booking) (car_id : Int) (rS rE : Date) : Prop :=
  ∃ b ∈ bookings, b.car_id = car_id ∧ ∃ bS bE,
    parseDate b.startDate = some bS ∧ parseDate b.endDate = some bE ∧
    overlapsB rS rE bS bE = true

/-- Two stored bookings overlap: all four stored dates parse and the
parsed intervals intersect inclusively. -/
def BookingsOverlap (a b : Booking) : Prop :=
  ∃ aS aE bS bE, parseDate a.startDate = some aS ∧ parseDate a.endDate = some aE ∧
    parseDate b.startDate = some bS ∧ parseDate b.endDate = some bE ∧
    overlapsB aS aE bS bE = true

/-- The per-car no-double-booking invariant of the store: no two stored
bookings of the same car have inclusively overlapping date intervals. -/
def NoDouble (bookings : List Booking) : Prop :=
  List.Pairwise (fun a b => a.car_id = b.car_id → ¬ BookingsOverlap a b) bookings

/-- Every stored booking of the store has parseable dates. -/
def WellFormed (bookings : List Booking) : Prop :=
  ∀ b ∈ bookings, (parseDate b.startDate).isSome ∧ (parseDate b.endDate).isSome

/-- The outcome of a create_booking call as a Python caller can classify
it without inspecting exception messages: the returned boolean, or the
class of the raised exception. -/
inductive OutcomeKind where
  | returnedTrue
  | returnedFalse
  | raisedValueError
deriving DecidableEq, Repr

/-- Classifies a create_booking result by its outcome kind. -/
def outcomeKind : Except PyError Bool → OutcomeKind
  | Except.ok true => OutcomeKind.returnedTrue
  | Except.ok false => OutcomeKind.returnedFalse
  | Except.error (PyError.valueError _) => OutcomeKind.raisedValueError

theorem Date.lt_eq_not_le (a b : Date) : Date.lt a b = !Date.le b a := by
  unfold Date.lt Date.le
  rw [← decide_not]
  exact decide_eq_decide.mpr (by omega)

theorem overlaps_eq (rS rE bS bE : Date) :
    overlapsCreateB rS rE bS bE = overlapsB rS rE bS bE := by
  unfold overlapsCreateB overlapsB
  rw [Date.lt_eq_not_le, Date.lt_eq_not_le]
  cases h1 : Date.le bS rE <;> cases h2 : Date.le rS bE <;> simp

theorem overlapsB_comm (aS aE bS bE : Date) :
    overlapsB aS aE bS bE = overlapsB bS bE aS aE := by
  unfold overlapsB
  exact Bool.and_comm _ _

theorem strptime_ok_iff (s : String) (d : Date) :
    strptime s = Except.ok d ↔ parseDate s = some d := by
  unfold strptime
  cases parseDate s <;> simp

theorem strptime_isOk_of_isSome (s : String) (h : (parseDate s).isSome) :
    ∃ d, strptime s = Except.ok d ∧ parseDate s = some d := by
  obtain ⟨d, hd⟩ := Option.isSome_iff_exists.mp h
  exact ⟨d, (strptime_ok_iff s d).mpr hd, hd⟩

theorem conflictB_iff (bookings : List Booking) (car_id : Int) (rS rE : Date) :
    conflictB bookings car_id rS rE = true ↔ ConflictsWith bookings car_id rS rE := by
  unfold conflictB ConflictsWith
  rw [List.any_eq_true]
  constructor
  · rintro ⟨b, hb, hp⟩
    rw [Bool.and_eq_true] at hp
    obtain ⟨h1, h2⟩ := hp
    refine ⟨b, hb, by simpa using h1, ?_⟩
    cases hS : parseDate b.startDate with
    | none => rw [hS] at h2; simp at h2
    | some bS =>
      cases hE : parseDate b.endDate with
      | none => rw [hS, hE] at h2; simp at h2
      | some bE =>
        rw [hS, hE] at h2
        exact ⟨bS, bE, rfl, rfl, h2⟩
  · rintro ⟨b, hb, hc, bS, bE, hS, hE, hov⟩
    refine ⟨b, hb, ?_⟩
    rw [Bool.and_eq_true]
    exact ⟨by simpa using hc, by rw [hS, hE]; exact hov⟩

theorem conflictScan_eq (bookings : List Booking) (car_id : Int) (rS rE : Date)
    (hwf : ∀ b ∈ bookings, b.car_id = car_id →
      (parseDate b.startDate).isSome ∧ (parseDate b.endDate).isSome) :
    conflictScan bookings car_id rS rE = Except.ok (conflictB bookings car_id rS rE) := by
  induction bookings with
  | nil => rfl
  | cons b rest ih =>
    have ihr := ih (fun x hx h => hwf x (List.mem_cons_of_mem b hx) h)
    by_cases hc : b.car_id = car_id
    · obtain ⟨h1, h2⟩ := hwf b (List.mem_cons_self b rest) hc
      obtain ⟨bS, hoS, hS⟩ := strptime_isOk_of_isSome _ h1
      obtain ⟨bE, hoE, hE⟩ := strptime_isOk_of_isSome _ h2
      rw [conflictScan, conflictB, List.any_cons]
      simp only [hc, beq_self_eq_true, if_true, hoS, hoE, hS, hE, Bool.true_and]
      by_cases hlt : Date.lt rE bS = true
      · have hle : Date.le bS rE = false := by
          have := Date.lt_eq_not_le rE bS
          rw [hlt] at this
          cases h : Date.le bS rE
          · rfl
          · rw [h] at this; simp at this
        have hov : overlapsB rS rE bS bE = false := by
          unfold overlapsB; rw [hle]; simp
        rw [hlt]
        simp only [if_true, hov, Bool.false_or]
        rw [ihr, conflictB]
      · rw [Bool.not_eq_true] at hlt
        rw [hlt]
        simp only [Bool.false_eq_true, if_false]
        by_cases hov : overlapsCreateB rS rE bS bE = true
        · rw [hov]
          have : overlapsB rS rE bS bE = true := by rw [← overlaps_eq]; exact hov
          rw [this]
          simp
        · rw [Bool.not_eq_true] at hov
          rw [hov]
          have : overlapsB rS rE bS bE = false := by rw [← overlaps_eq]; exact hov
          rw [this]
          simp only [Bool.false_eq_true, if_false, Bool.false_or]
          rw [ihr, conflictB]
    · rw [conflictScan, conflictB, List.any_cons]
      have hbeq : (b.car_id == car_id) = false := by
        simpa using hc
      rw [hbeq]
      simp only [Bool.false_eq_true, if_false, Bool.false_and, Bool.false_or]
      rw [ihr, conflictB]

theorem is_car_available_eq (bookings : List Booking) (car_id : Int)
    (s e : String) (rS rE : Date)
    (hs : parseDate s = some rS) (he : parseDate e = some rE)
    (hwf : ∀ b ∈ bookings, b.car_id = car_id →
      (parseDate b.startDate).isSome ∧ (parseDate b.endDate).isSome) :
    is_car_available bookings car_id s e =
      Except.ok (!conflictB bookings car_id rS rE) := by
  induction bookings with
  | nil => rfl
  | cons b rest ih =>
    have ihr := ih (fun x hx h => hwf x (List.mem_cons_of_mem b hx) h)
    by_cases hc : b.car_id = car_id
    · obtain ⟨h1, h2⟩ := hwf b (List.mem_cons_self b rest) hc
      obtain ⟨bS, hoS, hS⟩ := strptime_isOk_of_isSome _ h1
      obtain ⟨bE, hoE, hE⟩ := strptime_isOk_of_isSome _ h2
      rw [is_car_available, conflictB, List.any_cons]
      simp only [hc, beq_self_eq_true, if_true, hoS, hoE, hS, hE, Bool.true_and,
        (strptime_ok_iff s rS).mpr hs, (strptime_ok_iff e rE).mpr he]
      by_cases hov : overlapsB rS rE bS bE = true
      · rw [hov]; simp
      · rw [Bool.not_eq_true] at hov
        rw [hov]
        simp only [Bool.false_eq_true, if_false, Bool.false_or]
        rw [ihr, conflictB]
    · rw [is_car_available, conflictB, List.any_cons]
      have hbeq : (b.car_id == car_id) = false := by simpa using hc
      rw [hbeq]
      simp only [Bool.false_eq_true, if_false, Bool.false_and, Bool.false_or]
      rw [ihr, conflictB]

theorem is_car_available_no_match (bookings : List Booking) (car_id : Int)
    (s e : String) (h : ∀ b ∈ bookings, ¬ b.car_id = car_id) :
    is_car_available bookings car_id s e = Except.ok true := by
  induction bookings with
  | nil => rfl
  | cons b rest ih =>
    rw [is_car_available]
    have hbeq : (b.car_id == car_id) = false := by
      simpa using h b (List.mem_cons_self b rest)
    rw [hbeq]
    simp only [Bool.false_eq_true, if_false]
    exact ih (fun x hx => h x (List.mem_cons_of_mem b hx))

theorem conflictScan_no_match (bookings : List Booking) (car_id : Int)
    (rS rE : Date) (h : ∀ b ∈ bookings, ¬ b.car_id = car_id) :
    conflictScan bookings car_id rS rE = Except.ok false := by
  induction bookings with
  | nil => rfl
  | cons b rest ih =>
    rw [conflictScan]
    have hbeq : (b.car_id == car_id) = false := by
      simpa using h b (List.mem_cons_self b rest)
    rw [hbeq]
    simp only [Bool.false_eq_true, if_false]
    exact ih (fun x hx => h x (List.mem_cons_of_mem b hx))

theorem conflictScan_false_no_overlap (bookings : List Booking) (car_id : Int)
    (rS rE : Date)
    (h : conflictScan bookings car_id rS rE = Except.ok false) :
    ∀ b ∈ bookings, b.car_id = car_id →
    ∀ bS bE, parseDate b.startDate = some bS → parseDate b.endDate = some bE →
    overlapsB rS rE bS bE = false := by
  induction bookings with
  | nil => intro b hb; cases hb
  | cons a rest ih =>
    intro b hb hc bS bE hpS hpE
    rw [conflictScan] at h
    rcases List.mem_cons.mp hb with hhd | htl
    · subst hhd
      have hbeq : (b.car_id == car_id) = true := by simpa using hc
      simp only [hbeq, if_true, (strptime_ok_iff _ _).mpr hpS,
        (strptime_ok_iff _ _).mpr hpE] at h
      by_cases hlt : Date.lt rE bS = true
      · have hle : Date.le bS rE = false := by
          have := Date.lt_eq_not_le rE bS
          rw [hlt] at this
          cases hq : Date.le bS rE
          · rfl
          · rw [hq] at this; simp at this
        unfold overlapsB; rw [hle]; simp
      · rw [Bool.not_eq_true] at hlt
        simp only [hlt, Bool.false_eq_true, if_false] at h
        by_cases hov : overlapsCreateB rS rE bS bE = true
        · simp only [hov, if_true] at h
          cases h
        · rw [Bool.not_eq_true] at hov
          rw [← overlaps_eq]
          exact hov
    · by_cases hahd : a.car_id = car_id
      · have hbeq : (a.car_id == car_id) = true := by simpa using hahd
        simp only [hbeq, if_true] at h
        cases hsa : strptime a.startDate with
        | error err => rw [hsa] at h; simp at h
        | ok aS =>
          simp only [hsa] at h
          by_cases hlt : Date.lt rE aS = true
          · simp only [hlt, if_true] at h
            exact ih h b htl hc bS bE hpS hpE
          · rw [Bool.not_eq_true] at hlt
            simp only [hlt, Bool.false_eq_true, if_false] at h
            cases hea : strptime a.endDate with
            | error err => rw [hea] at h; simp at h
            | ok aE =>
              simp only [hea] at h
              by_cases hov : overlapsCreateB rS rE aS aE = true
              · simp only [hov, if_true] at h
                cases h
              · rw [Bool.not_eq_true] at hov
                simp only [hov, Bool.false_eq_true, if_false] at h
                exact ih h b htl hc bS bE hpS hpE
      · have hbeq : (a.car_id == car_id) = false := by simpa using hahd
        simp only [hbeq, Bool.false_eq_true, if_false] at h
        exact ih h b htl hc bS bE hpS hpE

theorem create_booking_cases (cars : List Car) (bookings : List Booking)
    (car_id : Int) (s e pt dt : String) :
    (create_booking cars bookings car_id s e pt dt).2 = bookings ∨
    (create_booking cars bookings car_id s e pt dt =
      (Except.ok true, bookings ++ [⟨car_id, s, e, pt, dt⟩]) ∧
      ∃ rS rE, strptime s = Except.ok rS ∧ strptime e = Except.ok rE ∧
        conflictScan bookings car_id rS rE = Except.ok false) := by
  unfold create_booking
  split
  · left; rfl
  · split
    · left; rfl
    · next rS hps =>
      split
      · left; rfl
      · next rE hpe =>
        split
        · left; rfl
        · left; rfl
        · next hcs =>
          right
          exact ⟨rfl, rS, rE, hps, hpe, hcs⟩

theorem create_booking_not_found (cars : List Car) (bookings : List Booking)
    (car_id : Int) (s e pt dt : String) (h : ∀ c ∈ cars, ¬ c.id = car_id) :
    create_booking cars bookings car_id s e pt dt =
      (Except.error (PyError.valueError "Car not found."), bookings) := by
  unfold create_booking
  have hfind : cars.find? (fun car => car.id == car_id) = none := by
    rw [List.find?_eq_none]
    intro x hx
    simpa using h x hx
  rw [hfind]

theorem create_booking_found_eq (cars : List Car) (bookings : List Booking)
    (car_id : Int) (s e pt dt : String) (c : Car)
    (hfind : cars.find? (fun car => car.id == car_id) = some c) :
    create_booking cars bookings car_id s e pt dt =
      (match strptime s with
       | Except.error er => (Except.error er, bookings)
       | Except.ok rS =>
         match strptime e with
         | Except.error er => (Except.error er, bookings)
         | Except.ok rE =>
           match conflictScan bookings car_id rS rE with
           | Except.error er => (Except.error er, bookings)
           | Except.ok true => (Except.ok false, bookings)
           | Except.ok false =>
             (Except.ok true, bookings ++ [⟨car_id, s, e, pt, dt⟩])) := by
  unfold create_booking
  rw [hfind]

theorem exists_find?_of_mem (cars : List Car) (car_id : Int)
    (h : ∃ c ∈ cars, c.id = car_id) :
    ∃ c, cars.find? (fun car => car.id == car_id) = some c := by
  have : (cars.find? (fun car => car.id == car_id)).isSome := by
    rw [List.find?_isSome]
    obtain ⟨c, hc, hid⟩ := h
    exact ⟨c, hc, by simpa using hid⟩
  exact Option.isSome_iff_exists.mp this

theorem create_booking_preserves_noDouble (cars : List Car) (bookings : List Booking)
    (car_id : Int) (s e pt dt : String) (h : NoDouble bookings) :
    NoDouble (create_booking cars bookings car_id s e pt dt).2 := by
  rcases create_booking_cases cars bookings car_id s e pt dt with
    heq | ⟨heq, rS, rE, hps, hpe, hcs⟩
  · rw [heq]; exact h
  · rw [heq]
    unfold NoDouble
    rw [List.pairwise_append]
    refine ⟨h, by simp, ?_⟩
    intro a ha nb hnb
    rw [List.mem_singleton] at hnb
    subst hnb
    intro hcid hov
    obtain ⟨aS, aE, nS, nE, hpaS, hpaE, hpnS, hpnE, hovB⟩ := hov
    have hnS : nS = rS := by
      rw [show (⟨car_id, s, e, pt, dt⟩ : Booking).startDate = s from rfl,
        (strptime_ok_iff s rS).mp hps] at hpnS
      exact (Option.some_inj.mp hpnS).symm
    have hnE : nE = rE := by
      rw [show (⟨car_id, s, e, pt, dt⟩ : Booking).endDate = e from rfl,
        (strptime_ok_iff e rE).mp hpe] at hpnE
      exact (Option.some_inj.mp hpnE).symm
    have hno := conflictScan_false_no_overlap bookings car_id rS rE hcs a ha
      hcid aS aE hpaS hpaE
    rw [hnS, hnE, overlapsB_comm, hno] at hovB
    cases hovB

theorem create_booking_preserves_wellFormed (cars : List Car) (bookings : List Booking)
    (car_id : Int) (s e pt dt : String) (h : WellFormed bookings) :
    WellFormed (create_booking cars bookings car_id s e pt dt).2 := by
  rcases create_booking_cases cars bookings car_id s e pt dt with
    heq | ⟨heq, rS, rE, hps, hpe, hcs⟩
  · rw [heq]; exact h
  · rw [heq]
    intro b hb
    rcases List.mem_append.mp hb with hb1 | hb2
    · exact h b hb1
    · rw [List.mem_singleton] at hb2
      subst hb2
      constructor
      · show (parseDate s).isSome
        rw [(strptime_ok_iff s rS).mp hps]; rfl
      · show (parseDate e).isSome
        rw [(strptime_ok_iff e rE).mp hpe]; rfl

theorem runBookings_preserves_noDouble (cars : List Car) (reqs : List Request)
    (bookings : List Booking) (h : NoDouble bookings) :
    NoDouble (runBookings cars reqs bookings) := by
  induction reqs generalizing bookings with
  | nil => exact h
  | cons r rs ih =>
    rw [runBookings]
    exact ih _ (create_booking_preserves_noDouble cars bookings r.car_id
      r.start_date r.end_date r.pickup_time r.dropoff_time h)

theorem runBookings_preserves_wellFormed (cars : List Car) (reqs : List Request)
    (bookings : List Booking) (h : WellFormed bookings) :
    WellFormed (runBookings cars reqs bookings) := by
  induction reqs generalizing bookings with
  | nil => exact h
  | cons r rs ih =>
    rw [runBookings]
    exact ih _ (create_booking_preserves_wellFormed cars bookings r.car_id
      r.start_date r.end_date r.pickup_time r.dropoff_time h)

theorem strptime_err (s : String) (h : parseDate s = none) :
    strptime s =
      Except.error (PyError.valueError "time data does not match format Y-m-d") := by
  unfold strptime
  rw [h]

theorem availScan_eq (cars : List Car) (bookings : List Booking)
    (s e : String) (rS rE : Date)
    (hs : parseDate s = some rS) (he : parseDate e = some rE)
    (hwf : WellFormed bookings) :
    availScan bookings s e cars =
      Except.ok (cars.filter (fun c => !conflictB bookings c.id rS rE)) := by
  induction cars with
  | nil => rfl
  | cons c rest ih =>
    rw [availScan, List.filter_cons]
    have hwfc : ∀ b ∈ bookings, b.car_id = c.id →
        (parseDate b.startDate).isSome ∧ (parseDate b.endDate).isSome :=
      fun b hb _ => hwf b hb
    rw [is_car_available_eq bookings c.id s e rS rE hs he hwfc, ih]

theorem availScanFiltered_eq (cars : List Car) (bookings : List Booking)
    (s e m : String) (rS rE : Date)
    (hs : parseDate s = some rS) (he : parseDate e = some rE)
    (hwf : WellFormed bookings) :
    availScanFiltered bookings s e m cars =
      Except.ok (cars.filter
        (fun c => (c.name.toLower == m.toLower) && !conflictB bookings c.id rS rE)) := by
  induction cars with
  | nil => rfl
  | cons c rest ih =>
    rw [availScanFiltered, List.filter_cons]
    by_cases hn : (c.name.toLower == m.toLower) = true
    · have hwfc : ∀ b ∈ bookings, b.car_id = c.id →
          (parseDate b.startDate).isSome ∧ (parseDate b.endDate).isSome :=
        fun b hb _ => hwf b hb
      rw [hn, is_car_available_eq bookings c.id s e rS rE hs he hwfc, ih]
      cases hcb : conflictB bookings c.id rS rE <;> simp [hcb]
    · rw [Bool.not_eq_true] at hn
      rw [hn, ih]
      simp

theorem create_booking_success (cars : List Car) (bookings : List Booking)
    (car_id : Int) (s e pt dt : String) (rS rE : Date)
    (hcar : ∃ c ∈ cars, c.id = car_id)
    (hs : parseDate s = some rS) (he : parseDate e = some rE)
    (hwf : ∀ b ∈ bookings, b.car_id = car_id →
      (parseDate b.startDate).isSome ∧ (parseDate b.endDate).isSome)
    (hnc : ¬ ConflictsWith bookings car_id rS rE) :
    create_booking cars bookings car_id s e pt dt =
      (Except.ok true, bookings ++ [⟨car_id, s, e, pt, dt⟩]) := by
  obtain ⟨c, hfind⟩ := exists_find?_of_mem cars car_id hcar
  rw [create_booking_found_eq cars bookings car_id s e pt dt c hfind]
  have hcb : conflictB bookings car_id rS rE = false := by
    cases hq : conflictB bookings car_id rS rE
    · rfl
    · exact absurd ((conflictB_iff bookings car_id rS rE).mp hq) hnc
  simp only [(strptime_ok_iff s rS).mpr hs, (strptime_ok_iff e rE).mpr he,
    conflictScan_eq bookings car_id rS rE hwf, hcb]

theorem create_booking_conflict (cars : List Car) (bookings : List Booking)
    (car_id : Int) (s e pt dt : String) (rS rE : Date)
    (hcar : ∃ c ∈ cars, c.id = car_id)
    (hs : parseDate s = some rS) (he : parseDate e = some rE)
    (hwf : ∀ b ∈ bookings, b.car_id = car_id →
      (parseDate b.startDate).isSome ∧ (parseDate b.endDate).isSome)
    (hcw : ConflictsWith bookings car_id rS rE) :
    create_booking cars bookings car_id s e pt dt = (Except.ok false, bookings) := by
  obtain ⟨c, hfind⟩ := exists_find?_of_mem cars car_id hcar
  rw [create_booking_found_eq cars bookings car_id s e pt dt c hfind]
  have hcb : conflictB bookings car_id rS rE = true :=
    (conflictB_iff bookings car_id rS rE).mpr hcw
  simp only [(strptime_ok_iff s rS).mpr hs, (strptime_ok_iff e rE).mpr he,
    conflictScan_eq bookings car_id rS rE hwf, hcb]

theorem create_booking_bad_date (cars : List Car) (bookings : List Booking)
    (car_id : Int) (s e pt dt : String)
    (hcar : ∃ c ∈ cars, c.id = car_id)
    (hbad : parseDate s = none ∨ parseDate e = none) :
    create_booking cars bookings car_id s e pt dt =
      (Except.error (PyError.valueError "time data does not match format Y-m-d"),
        bookings) := by
  obtain ⟨c, hfind⟩ := exists_find?_of_mem cars car_id hcar
  rw [create_booking_found_eq cars bookings car_id s e pt dt c hfind]
  rcases hbad with hb | hb
  · simp only [strptime_err s hb]
  · cases hps : parseDate s with
    | none => simp only [strptime_err s hps]
    | some rS =>
      simp only [(strptime_ok_iff s rS).mpr hps, strptime_err e hb]

/-- C1: for every car identifier and parsed date range, is_car_available
returns ok false exactly when some stored booking of that car overlaps the
requested range under the inclusive-bounds test, returns ok true
otherwise, and for a store holding no booking of that car (in particular
an unknown car identifier, never looked up in the catalog) it returns
ok true without raising any error, whatever the request strings. -/
theorem c1_is_car_available_iff (bookings : List Booking) (car_id : Int)
    (s e : String) (rS rE : Date)
    (hs : parseDate s = some rS) (he : parseDate e = some rE)
    (hwf : ∀ b ∈ bookings, b.car_id = car_id →
      (parseDate b.startDate).isSome ∧ (parseDate b.endDate).isSome) :
    (is_car_available bookings car_id s e = Except.ok false ↔
      ConflictsWith bookings car_id rS rE) ∧
    (is_car_available bookings car_id s e = Except.ok true ↔
      ¬ ConflictsWith bookings car_id rS rE) ∧
    (∀ (bookings2 : List Booking) (s2 e2 : String),
      (∀ b ∈ bookings2, ¬ b.car_id = car_id) →
      is_car_available bookings2 car_id s2 e2 = Except.ok true) := by
  have hmain := is_car_available_eq bookings car_id s e rS rE hs he hwf
  refine ⟨?_, ?_, fun b2 s2 e2 hnm => is_car_available_no_match b2 car_id s2 e2 hnm⟩
  · constructor
    · intro hh
      rw [hmain] at hh
      refine (conflictB_iff _ _ _ _).mp ?_
      cases hq : conflictB bookings car_id rS rE
      · rw [hq] at hh; simp at hh
      · rfl
    · intro hcw
      rw [hmain, (conflictB_iff _ _ _ _).mpr hcw]
      rfl
  · constructor
    · intro hh hcw
      rw [hmain, (conflictB_iff _ _ _ _).mpr hcw] at hh
      simp at hh
    · intro hcw
      have hcb : conflictB bookings car_id rS rE = false := by
        cases hq : conflictB bookings car_id rS rE
        · rfl
        · exact absurd ((conflictB_iff _ _ _ _).mp hq) hcw
      rw [hmain, hcb]
      rfl

/-- Witness for C1 at a concrete store: the overlap request 2024-12-05 to
2024-12-07 against a booking 2024-12-01 to 2024-12-10 is reported
unavailable. -/
theorem c1_witness :
    is_car_available [⟨1, "2024-12-01", "2024-12-10", "08:00", "18:00"⟩] 1
      "2024-12-05" "2024-12-07" = Except.ok false :=
  ((c1_is_car_available_iff [⟨1, "2024-12-01", "2024-12-10", "08:00", "18:00"⟩] 1
      "2024-12-05" "2024-12-07" ⟨2024, 12, 5⟩ ⟨2024, 12, 7⟩ rfl rfl
      (by intro b hb; rw [List.mem_singleton] at hb; subst hb
          exact fun _ => ⟨rfl, rfl⟩)).1).mpr
    ⟨_, List.mem_singleton_self _, rfl, ⟨2024, 12, 1⟩, ⟨2024, 12, 10⟩, rfl, rfl, rfl⟩

/-- C2: the overlap test written in create_booking and the
inclusive-overlap test of is_car_available are extensionally equal on all
date ranges, and over a common car catalog and stored booking set the two
functions agree on conflict detection: create_booking returns the
conflict result ok false exactly when is_car_available reports the car
unavailable. -/
theorem c2_overlap_predicates_agree :
    (∀ rS rE bS bE : Date, overlapsCreateB rS rE bS bE = overlapsB rS rE bS bE) ∧
    (∀ (cars : List Car) (bookings : List Booking) (car_id : Int)
      (s e pt dt : String) (rS rE : Date),
      (∃ c ∈ cars, c.id = car_id) →
      parseDate s = some rS → parseDate e = some rE →
      (∀ b ∈ bookings, b.car_id = car_id →
        (parseDate b.startDate).isSome ∧ (parseDate b.endDate).isSome) →
      ((create_booking cars bookings car_id s e pt dt).1 = Except.ok false ↔
        is_car_available bookings car_id s e = Except.ok false)) := by
  refine ⟨overlaps_eq, ?_⟩
  intro cars bookings car_id s e pt dt rS rE hcar hs he hwf
  have hica := is_car_available_eq bookings car_id s e rS rE hs he hwf
  cases hcb : conflictB bookings car_id rS rE
  · have h1 := create_booking_success cars bookings car_id s e pt dt rS rE hcar hs he hwf
      (fun hcw => by rw [(conflictB_iff _ _ _ _).mpr hcw] at hcb; cases hcb)
    rw [h1, hica, hcb]
    simp
  · have h1 := create_booking_conflict cars bookings car_id s e pt dt rS rE hcar hs he hwf
      ((conflictB_iff _ _ _ _).mp hcb)
    rw [h1, hica, hcb]
    simp

/-- Witness for C2 at concrete inputs: the predicate equation at four
concrete dates, and agreement of the two functions on a concrete store
where the request conflicts. -/
theorem c2_witness :
    (overlapsCreateB ⟨2024, 12, 5⟩ ⟨2024, 12, 7⟩ ⟨2024, 12, 1⟩ ⟨2024, 12, 10⟩ =
      overlapsB ⟨2024, 12, 5⟩ ⟨2024, 12, 7⟩ ⟨2024, 12, 1⟩ ⟨2024, 12, 10⟩) ∧
    ((create_booking [⟨1, "SEAT Ibiza"⟩]
        [⟨1, "2024-12-01", "2024-12-10", "08:00", "18:00"⟩] 1
        "2024-12-05" "2024-12-07" "08:00" "18:00").1 = Except.ok false ↔
      is_car_available [⟨1, "2024-12-01", "2024-12-10", "08:00", "18:00"⟩] 1
        "2024-12-05" "2024-12-07" = Except.ok false) :=
  ⟨c2_overlap_predicates_agree.1 _ _ _ _,
   c2_overlap_predicates_agree.2 [⟨1, "SEAT Ibiza"⟩]
     [⟨1, "2024-12-01", "2024-12-10", "08:00", "18:00"⟩] 1
     "2024-12-05" "2024-12-07" "08:00" "18:00" ⟨2024, 12, 5⟩ ⟨2024, 12, 7⟩
     ⟨⟨1, "SEAT Ibiza"⟩, List.mem_singleton_self _, rfl⟩ rfl rfl
     (by intro b hb; rw [List.mem_singleton] at hb; subst hb
         exact fun _ => ⟨rfl, rfl⟩)⟩

/-- C6: with a stored booking 2024-12-01 to 2024-12-10 for car 1, the
request 2024-12-10 to 2024-12-15 (shared boundary date) is reported
unavailable and the request 2024-12-11 to 2024-12-15 (no shared date) is
reported available. -/
theorem c6_boundary_touch :
    is_car_available [⟨1, "2024-12-01", "2024-12-10", "08:00", "18:00"⟩] 1
      "2024-12-10" "2024-12-15" = Except.ok false ∧
    is_car_available [⟨1, "2024-12-01", "2024-12-10", "08:00", "18:00"⟩] 1
      "2024-12-11" "2024-12-15" = Except.ok true :=
  ⟨rfl, rfl⟩

/-- C8: the inclusive overlap predicate is symmetric in its two date
ranges. -/
theorem c8_overlaps_comm (aS aE bS bE : Date) :
    overlapsB aS aE bS bE = overlapsB bS bE aS aE :=
  overlapsB_comm aS aE bS bE

/-- C10: an empty string passed as the model filter is falsy in Python, so
check_car_availability behaves exactly as with no filter at all: every
catalog car is considered for availability. -/
theorem c10_empty_filter (cars : List Car) (bookings : List Booking) (s e : String) :
    check_car_availability cars bookings s e (some "") =
      check_car_availability cars bookings s e none := rfl

/-- C3: create_booking mutates the booking store only when it returns ok
true; a detected conflict yields ok false with no write, an unknown car
raises the car-not-found ValueError with no write, and a malformed date
raises a ValueError before any write, the store staying unchanged in each
case. -/
theorem c3_create_booking_writes_only_on_true (cars : List Car)
    (bookings : List Booking) (car_id : Int) (s e pt dt : String) :
    ((create_booking cars bookings car_id s e pt dt).2 ≠ bookings →
      (create_booking cars bookings car_id s e pt dt).1 = Except.ok true) ∧
    (∀ rS rE : Date,
      (∃ c ∈ cars, c.id = car_id) →
      parseDate s = some rS → parseDate e = some rE →
      (∀ b ∈ bookings, b.car_id = car_id →
        (parseDate b.startDate).isSome ∧ (parseDate b.endDate).isSome) →
      ConflictsWith bookings car_id rS rE →
      create_booking cars bookings car_id s e pt dt = (Except.ok false, bookings)) ∧
    ((∀ c ∈ cars, ¬ c.id = car_id) →
      create_booking cars bookings car_id s e pt dt =
        (Except.error (PyError.valueError "Car not found."), bookings)) ∧
    ((∃ c ∈ cars, c.id = car_id) → (parseDate s = none ∨ parseDate e = none) →
      ∃ msg, create_booking cars bookings car_id s e pt dt =
        (Except.error (PyError.valueError msg), bookings)) := by
  refine ⟨?_, ?_, ?_, ?_⟩
  · intro hne
    rcases create_booking_cases cars bookings car_id s e pt dt with heq | ⟨heq, _⟩
    · exact absurd heq hne
    · rw [heq]
  · intro rS rE hcar hs he hwf hcw
    exact create_booking_conflict cars bookings car_id s e pt dt rS rE hcar hs he hwf hcw
  · exact create_booking_not_found cars bookings car_id s e pt dt
  · intro hcar hbad
    exact ⟨_, create_booking_bad_date cars bookings car_id s e pt dt hcar hbad⟩

/-- Witness for C3 at concrete stores: a conflicting request writes
nothing and returns ok false, an unknown car id raises the car-not-found
error with the store unchanged, and a malformed start date raises a
ValueError with the store unchanged. -/
theorem c3_witness :
    create_booking [⟨1, "SEAT Ibiza"⟩]
      [⟨1, "2024-12-01", "2024-12-10", "08:00", "18:00"⟩] 1
      "2024-12-05" "2024-12-07" "08:00" "18:00" =
      (Except.ok false, [⟨1, "2024-12-01", "2024-12-10", "08:00", "18:00"⟩]) ∧
    create_booking [⟨1, "SEAT Ibiza"⟩] [] 99 "2024-12-01" "2024-12-10"
      "08:00" "18:00" = (Except.error (PyError.valueError "Car not found."), []) ∧
    ∃ msg, create_booking [⟨1, "SEAT Ibiza"⟩] [] 1 "2024-13-40" "2024-12-10"
      "08:00" "18:00" = (Except.error (PyError.valueError msg), []) :=
  ⟨(c3_create_booking_writes_only_on_true _ _ 1 _ _ _ _).2.1 ⟨2024, 12, 5⟩ ⟨2024, 12, 7⟩
      ⟨⟨1, "SEAT Ibiza"⟩, List.mem_singleton_self _, rfl⟩ rfl rfl
      (by intro b hb; rw [List.mem_singleton] at hb; subst hb
          exact fun _ => ⟨rfl, rfl⟩)
      ⟨_, List.mem_singleton_self _, rfl, ⟨2024, 12, 1⟩, ⟨2024, 12, 10⟩, rfl, rfl, rfl⟩,
   (c3_create_booking_writes_only_on_true _ _ 99 _ _ _ _).2.2.1
      (by intro c hc; rw [List.mem_singleton] at hc; subst hc; decide),
   (c3_create_booking_writes_only_on_true _ _ 1 _ _ _ _).2.2.2
      ⟨⟨1, "SEAT Ibiza"⟩, List.mem_singleton_self _, rfl⟩ (Or.inl rfl)⟩

/-- C4: on the success path (car in catalog, dates parse, no overlap with
any stored booking of that car) create_booking appends exactly one new
booking record at the end of the collection, leaves every pre-existing
record in place, persists the whole collection and returns ok true. -/
theorem c4_create_booking_appends (cars : List Car) (bookings : List Booking)
    (car_id : Int) (s e pt dt : String) (rS rE : Date)
    (hcar : ∃ c ∈ cars, c.id = car_id)
    (hs : parseDate s = some rS) (he : parseDate e = some rE)
    (hwf : ∀ b ∈ bookings, b.car_id = car_id →
      (parseDate b.startDate).isSome ∧ (parseDate b.endDate).isSome)
    (hnc : ¬ ConflictsWith bookings car_id rS rE) :
    create_booking cars bookings car_id s e pt dt =
      (Except.ok true, bookings ++ [⟨car_id, s, e, pt, dt⟩]) :=
  create_booking_success cars bookings car_id s e pt dt rS rE hcar hs he hwf hnc

/-- Witness for C4: booking car 1 next to an existing booking of car 2
appends the new record after the old one and returns ok true. -/
theorem c4_witness :
    create_booking [⟨1, "SEAT Ibiza"⟩, ⟨2, "Volkswagen Polo"⟩]
      [⟨2, "2024-12-01", "2024-12-10", "08:00", "18:00"⟩] 1
      "2024-12-01" "2024-12-10" "09:00" "17:00" =
      (Except.ok true,
        [⟨2, "2024-12-01", "2024-12-10", "08:00", "18:00"⟩] ++
          [⟨1, "2024-12-01", "2024-12-10", "09:00", "17:00"⟩]) :=
  c4_create_booking_appends _ _ 1 _ _ _ _ ⟨2024, 12, 1⟩ ⟨2024, 12, 10⟩
    ⟨⟨1, "SEAT Ibiza"⟩, List.mem_cons_self _ _, rfl⟩ rfl rfl
    (by intro b hb; rw [List.mem_singleton] at hb; subst hb
        exact fun hcid => absurd hcid (by decide))
    (by rintro ⟨b, hb, hcid, _⟩; rw [List.mem_singleton] at hb; subst hb
        exact absurd hcid (by decide))

/-- C5: check_car_availability returns, in catalog order, exactly the cars
whose lowered name equals the lowered filter (exact equality) and whose
availability check holds, the availability boolean agreeing with
is_car_available for every car; without filter every catalog car is
considered, and an empty result is an ok empty list, not an error. -/
theorem c5_check_car_availability (cars : List Car) (bookings : List Booking)
    (s e m : String) (rS rE : Date)
    (hs : parseDate s = some rS) (he : parseDate e = some rE)
    (hwf : WellFormed bookings) (hm : ¬ m = "") :
    check_car_availability cars bookings s e (some m) =
      Except.ok (cars.filter
        (fun c => (c.name.toLower == m.toLower) && !conflictB bookings c.id rS rE)) ∧
    (∀ c : Car, (!conflictB bookings c.id rS rE) = true ↔
      is_car_available bookings c.id s e = Except.ok true) ∧
    check_car_availability cars bookings s e none =
      Except.ok (cars.filter (fun c => !conflictB bookings c.id rS rE)) := by
  refine ⟨?_, ?_, ?_⟩
  · show (if (m == "") = true then availScan bookings s e cars
      else availScanFiltered bookings s e m cars) = _
    have hmb : (m == "") = false := by simpa using hm
    rw [hmb]
    simp only [Bool.false_eq_true, if_false]
    exact availScanFiltered_eq cars bookings s e m rS rE hs he hwf
  · intro c
    have h := is_car_available_eq bookings c.id s e rS rE hs he (fun b hb _ => hwf b hb)
    rw [h]
    cases hcb : conflictB bookings c.id rS rE <;> simp [hcb]
  · exact availScan_eq cars bookings s e rS rE hs he hwf

/-- Witness for C5: with two cars and one booking for car 1, the filter
on the exact name of car 2 keeps only car 2. -/
theorem c5_witness :
    check_car_availability [⟨1, "SEAT Ibiza"⟩, ⟨2, "Volkswagen Polo"⟩]
      [⟨1, "2024-12-01", "2024-12-10", "08:00", "18:00"⟩]
      "2024-12-05" "2024-12-07" (some "volkswagen polo") =
      Except.ok ([⟨1, "SEAT Ibiza"⟩, ⟨2, "Volkswagen Polo"⟩].filter
        (fun c => (c.name.toLower == "volkswagen polo".toLower) &&
          !conflictB [⟨1, "2024-12-01", "2024-12-10", "08:00", "18:00"⟩] c.id
            ⟨2024, 12, 5⟩ ⟨2024, 12, 7⟩)) :=
  (c5_check_car_availability [⟨1, "SEAT Ibiza"⟩, ⟨2, "Volkswagen Polo"⟩]
    [⟨1, "2024-12-01", "2024-12-10", "08:00", "18:00"⟩]
    "2024-12-05" "2024-12-07" "volkswagen polo" ⟨2024, 12, 5⟩ ⟨2024, 12, 7⟩ rfl rfl
    (by intro b hb; rw [List.mem_singleton] at hb; subst hb; exact ⟨rfl, rfl⟩)
    (by decide)).1

/-- C7: starting from a store satisfying the per-car no-double-booking
invariant, any sequence of create_booking calls preserves it, and two
sequential identical bookings for a car with no prior bookings yield
ok true then ok false, leaving exactly one stored booking for that car. -/
theorem c7_no_double_booking_invariant (cars : List Car) :
    (∀ (reqs : List Request) (bookings : List Booking),
      NoDouble bookings → NoDouble (runBookings cars reqs bookings)) ∧
    (∀ (bookings : List Booking) (car_id : Int) (s e pt dt : String) (rS rE : Date),
      (∃ c ∈ cars, c.id = car_id) →
      parseDate s = some rS → parseDate e = some rE →
      Date.le rS rE = true →
      (∀ b ∈ bookings, ¬ b.car_id = car_id) →
      create_booking cars bookings car_id s e pt dt =
        (Except.ok true, bookings ++ [⟨car_id, s, e, pt, dt⟩]) ∧
      create_booking cars (bookings ++ [⟨car_id, s, e, pt, dt⟩]) car_id s e pt dt =
        (Except.ok false, bookings ++ [⟨car_id, s, e, pt, dt⟩]) ∧
      ((bookings ++ [(⟨car_id, s, e, pt, dt⟩ : Booking)]).filter
        (fun b => b.car_id == car_id)).length = 1) := by
  refine ⟨fun reqs bookings h => runBookings_preserves_noDouble cars reqs bookings h, ?_⟩
  intro bookings car_id s e pt dt rS rE hcar hs he hle hnone
  have hwf : ∀ b ∈ bookings, b.car_id = car_id →
      (parseDate b.startDate).isSome ∧ (parseDate b.endDate).isSome :=
    fun b hb hc => absurd hc (hnone b hb)
  have hnc : ¬ ConflictsWith bookings car_id rS rE := by
    rintro ⟨b, hb, hc, _⟩
    exact hnone b hb hc
  refine ⟨create_booking_success cars bookings car_id s e pt dt rS rE hcar hs he hwf hnc,
    ?_, ?_⟩
  · have hwf2 : ∀ b ∈ bookings ++ [(⟨car_id, s, e, pt, dt⟩ : Booking)],
        b.car_id = car_id →
        (parseDate b.startDate).isSome ∧ (parseDate b.endDate).isSome := by
      intro b hb hc
      rcases List.mem_append.mp hb with hmem | hmem
      · exact absurd hc (hnone b hmem)
      · rw [List.mem_singleton] at hmem
        subst hmem
        refine ⟨?_, ?_⟩
        · show (parseDate s).isSome
          rw [hs]; rfl
        · show (parseDate e).isSome
          rw [he]; rfl
    have hcw2 : ConflictsWith (bookings ++ [⟨car_id, s, e, pt, dt⟩]) car_id rS rE :=
      ⟨⟨car_id, s, e, pt, dt⟩,
        List.mem_append_right _ (List.mem_singleton_self _), rfl,
        rS, rE, hs, he, by unfold overlapsB; rw [hle]; rfl⟩
    exact create_booking_conflict cars _ car_id s e pt dt rS rE hcar hs he hwf2 hcw2
  · rw [List.filter_append]
    have h0 : bookings.filter (fun b => b.car_id == car_id) = [] := by
      rw [List.filter_eq_nil_iff]
      intro b hb
      simpa using hnone b hb
    rw [h0]
    simp

/-- Witness for C7: running the same booking request twice from the empty
store keeps the invariant, the first call succeeds, the second reports a
conflict, and one booking for the car remains. -/
theorem c7_witness :
    NoDouble (runBookings [⟨1, "SEAT Ibiza"⟩]
      [⟨1, "2024-12-01", "2024-12-10", "08:00", "18:00"⟩,
       ⟨1, "2024-12-01", "2024-12-10", "08:00", "18:00"⟩] []) ∧
    (create_booking [⟨1, "SEAT Ibiza"⟩] [] 1 "2024-12-01" "2024-12-10"
        "08:00" "18:00" =
      (Except.ok true, [] ++ [⟨1, "2024-12-01", "2024-12-10", "08:00", "18:00"⟩]) ∧
    create_booking [⟨1, "SEAT Ibiza"⟩]
        ([] ++ [⟨1, "2024-12-01", "2024-12-10", "08:00", "18:00"⟩]) 1
        "2024-12-01" "2024-12-10" "08:00" "18:00" =
      (Except.ok false, [] ++ [⟨1, "2024-12-01", "2024-12-10", "08:00", "18:00"⟩]) ∧
    ((([] : List Booking) ++ [(⟨1, "2024-12-01", "2024-12-10", "08:00", "18:00"⟩ : Booking)]).filter
      (fun b => b.car_id == 1)).length = 1) :=
  ⟨(c7_no_double_booking_invariant [⟨1, "SEAT Ibiza"⟩]).1 _ [] List.Pairwise.nil,
   (c7_no_double_booking_invariant [⟨1, "SEAT Ibiza"⟩]).2 [] 1
     "2024-12-01" "2024-12-10" "08:00" "18:00" ⟨2024, 12, 1⟩ ⟨2024, 12, 10⟩
     ⟨⟨1, "SEAT Ibiza"⟩, List.mem_singleton_self _, rfl⟩ rfl rfl rfl
     (by intro b hb; cases hb)⟩

/-- C9 counterexample: at a concrete catalog, the unknown-car call and the
malformed-date call to create_booking present as the same outcome kind
(both raise the exception class ValueError), refuting that no two of the
three non-success outcomes present alike. -/
theorem c9_counterexample :
    (create_booking [⟨1, "SEAT Ibiza"⟩] [] 99 "2024-12-01" "2024-12-10"
        "08:00" "18:00").1 = Except.error (PyError.valueError "Car not found.") ∧
    (create_booking [⟨1, "SEAT Ibiza"⟩] [] 1 "2024-13-40" "2024-12-10"
        "08:00" "18:00").1 =
      Except.error (PyError.valueError "time data does not match format Y-m-d") ∧
    outcomeKind (create_booking [⟨1, "SEAT Ibiza"⟩] [] 99 "2024-12-01" "2024-12-10"
        "08:00" "18:00").1 =
      outcomeKind (create_booking [⟨1, "SEAT Ibiza"⟩] [] 1 "2024-13-40" "2024-12-10"
        "08:00" "18:00").1 :=
  ⟨rfl, rfl, rfl⟩

/-- C9 amended: the conflict result ok false (and the success result ok
true) differ in outcome kind from every raised error, while the
unknown-car and malformed-date failures both raise the same exception
class ValueError and are distinguished only by message, the unknown-car
message being exactly the car-not-found text and the malformed-date
message differing from it. -/
theorem c9_error_signals (cars : List Car) (bookings : List Booking)
    (car_id : Int) (s e pt dt : String) :
    ((∀ c ∈ cars, ¬ c.id = car_id) →
      (create_booking cars bookings car_id s e pt dt).1 =
        Except.error (PyError.valueError "Car not found.")) ∧
    ((∃ c ∈ cars, c.id = car_id) → (parseDate s = none ∨ parseDate e = none) →
      ∃ msg, (create_booking cars bookings car_id s e pt dt).1 =
        Except.error (PyError.valueError msg) ∧ ¬ msg = "Car not found.") ∧
    (∀ err : PyError, ¬ outcomeKind (Except.ok false) = outcomeKind (Except.error err)) ∧
    (∀ err : PyError, ¬ outcomeKind (Except.ok true) = outcomeKind (Except.error err)) := by
  refine ⟨?_, ?_, ?_, ?_⟩
  · intro h
    rw [create_booking_not_found cars bookings car_id s e pt dt h]
  · intro hcar hbad
    refine ⟨"time data does not match format Y-m-d", ?_, by decide⟩
    rw [create_booking_bad_date cars bookings car_id s e pt dt hcar hbad]
  · rintro ⟨m⟩ h
    cases h
  · rintro ⟨m⟩ h
    cases h

/-- Witness for C9: the amended signal discrimination at concrete
inputs. -/
theorem c9_witness :
    (create_booking [⟨1, "SEAT Ibiza"⟩] [] 77 "2024-12-01" "2024-12-10"
        "08:00" "18:00").1 = Except.error (PyError.valueError "Car not found.") ∧
    (∃ msg, (create_booking [⟨1, "SEAT Ibiza"⟩] [] 1 "bad" "2024-12-10"
        "08:00" "18:00").1 = Except.error (PyError.valueError msg) ∧
      ¬ msg = "Car not found.") :=
  ⟨(c9_error_signals [⟨1, "SEAT Ibiza"⟩] [] 77 "2024-12-01" "2024-12-10"
      "08:00" "18:00").1
      (by intro c hc; rw [List.mem_singleton] at hc; subst hc; decide),
   (c9_error_signals [⟨1, "SEAT Ibiza"⟩] [] 1 "bad" "2024-12-10"
      "08:00" "18:00").2.1
      ⟨⟨1, "SEAT Ibiza"⟩, List.mem_singleton_self _, rfl⟩ (Or.inl rfl)⟩
